import Mathlib

/-
Shallow embedding of the real-time conversational session handler in
`src/main.py` (class `WebSocketHandler`, functions `analyze_hume_transcript`,
`save_chat_to_firestore`, `analyze_sentiment_with_chatgpt`,
`extract_entities_with_emotions`).

Modelling conventions:
* Emotion confidence scores (Python floats in [0,1]) are modelled as ℚ.
* Python dicts that map emotion labels to scores are modelled as association
  lists `List (String × ℚ)` in insertion order (Python dicts preserve
  insertion order); `lookupA`/`updateA` embed dict read and dict write.
* Remote calls (the OpenAI chat completion, the Firestore write) are
  side-effecting and fallible; their outcomes are injected as `Except Exn`
  parameters.  An exception value carries the Python exception type name
  (`type(e).__name__`) and its message.
* Console printing is not tracked except where a claim depends on it: the
  warning / error-handler prints of `save_chat_to_firestore` are recorded in
  the constructors of `SaveResult`.
* The `f"{score:.2f}"` display formatting of scores (a float-formatting
  detail) is not modelled; the persisted `top_emotions` field keeps the
  numeric scores.
* `datetime.utcnow()` is injected as a `Nat` timestamp parameter.
-/

namespace Neuropy

/-- A Python exception: its type name (`type(e).__name__`) and message. -/
structure Exn where
  ty : String
  msg : String
deriving DecidableEq

/-- One stored turn of dialogue, as appended by `WebSocketHandler.on_message`
(`src/main.py` lines 66-71). -/
structure Msg where
  role : String
  message : String
  timestamp : Nat
  emotions : List (String × ℚ)
deriving DecidableEq

/-- Python dict read `al.get(k)`: first binding of `k`, if any. -/
def lookupA : List (String × ℚ) → String → Option ℚ
  | [], _ => none
  | p :: rest, k => if p.1 = k then some p.2 else lookupA rest k

/-- Python dict write `al[k] = v`: replace the binding in place if `k` is
present, otherwise append a new binding at the end. -/
def updateA : List (String × ℚ) → String → ℚ → List (String × ℚ)
  | [], k, v => [(k, v)]
  | p :: rest, k, v => if p.1 = k then (k, v) :: rest else p :: updateA rest k v

/-- One step of the aggregation loop in `save_chat_to_firestore`
(line 165): `all_emotions[emotion] = max(score, all_emotions.get(emotion, 0))`. -/
def recordEmotion (acc : List (String × ℚ)) (p : String × ℚ) : List (String × ℚ) :=
  updateA acc p.1 (max p.2 ((lookupA acc p.1).getD 0))

/-- The body of the aggregation loop of `save_chat_to_firestore`
(lines 162-165): `if msg["role"] == "USER" and msg["emotions"]:` fold
`recordEmotion` over the message's emotion entries. -/
def aggStep (all : List (String × ℚ)) (msg : Msg) : List (String × ℚ) :=
  if msg.role == "USER" && !msg.emotions.isEmpty then
    msg.emotions.foldl recordEmotion all
  else all

/-- The emotion-aggregation loop of `save_chat_to_firestore` (lines 160-165):
fold over all messages, and for USER messages with a non-empty emotion dict,
fold `recordEmotion` over their emotion entries. -/
def aggregateEmotions (messages : List Msg) : List (String × ℚ) :=
  messages.foldl aggStep []

/-- Stable insertion of a pair into a list, descending by score: the pair
goes in front of the first element whose score is ≤ its own. -/
def insertDescByScore (p : String × ℚ) : List (String × ℚ) → List (String × ℚ)
  | [] => [p]
  | q :: rest => if q.2 ≤ p.2 then p :: q :: rest else q :: insertDescByScore p rest

/-- Python `sorted(items, key=lambda item: item[1], reverse=True)`: a stable
sort, descending by score (equal scores keep their original relative order).
Modelled as stable insertion sort, which is extensionally the same function. -/
def sortDescByScore : List (String × ℚ) → List (String × ℚ)
  | [] => []
  | p :: rest => insertDescByScore p (sortDescByScore rest)

/-- Embedding of `WebSocketHandler._extract_top_n_emotions` (lines 105-108): sort the
emotion dict descending by score and keep the first `n` entries.  The dict
comprehension in the source rebuilds a dict from the truncated sorted items;
since the keys of a dict are distinct, this is the truncated list itself. -/
def extract_top_n_emotions (emotion_scores : List (String × ℚ)) (n : Nat) :
    List (String × ℚ) :=
  (sortDescByScore emotion_scores).take n

/-- The transcript built at lines 150-154: the `message` texts of the USER
messages, in order, joined by single spaces. -/
def transcriptOf (messages : List Msg) : String :=
  String.intercalate " "
    ((messages.filter (fun m => m.role == "USER")).map (fun m => m.message))

/-- Python str.strip() whitespace test (ASCII whitespace; the unicode
whitespace cases of Python are not exercised here). -/
def isPyWhitespace (c : Char) : Bool :=
  c = ' ' || c = '\t' || c = '\n' || c = '\r' || c = '\x0b' || c = '\x0c'

/-- Python `s.strip()`: drop leading and trailing whitespace. -/
def strip (s : String) : String :=
  String.mk (((s.data.dropWhile isPyWhitespace).reverse.dropWhile isPyWhitespace).reverse)

/-- Helper for `splitOnBars`: prepend a character to the first chunk. -/
def consChunk (c : Char) : List (List Char) → List (List Char)
  | [] => [[c]]
  | chunk :: chunks => (c :: chunk) :: chunks

/-- Python `content.split("|||")` specialised to the literal delimiter used
at line 288: scan left to right, splitting at every (leftmost,
non-overlapping) occurrence of three consecutive bars. -/
def splitOnBars : List Char → List (List Char)
  | [] => [[]]
  | '|' :: '|' :: '|' :: rest2 => [] :: splitOnBars rest2
  | c :: rest => consChunk c (splitOnBars rest)

/-- Does the list start with the three-bar delimiter? -/
def startsWithBars : List Char → Bool
  | '|' :: '|' :: '|' :: _ => true
  | _ => false

/-- The three-bar delimiter of `analyze_sentiment_with_chatgpt`. -/
def bars : List Char := ['|', '|', '|']

/-- Line 288-289 of `analyze_sentiment_with_chatgpt`:
`analysis, feedback = response...content.split("|||")` followed by
`return analysis.strip(), feedback.strip()`.  Tuple unpacking succeeds only
when the split yields exactly two parts; otherwise Python raises a
`ValueError` about unpacking. -/
def parseSentimentResponse (content : String) : Except Exn (String × String) :=
  match (splitOnBars content.data).map String.mk with
  | [analysis, feedback] => .ok (strip analysis, strip feedback)
  | _ => .error ⟨"ValueError", "values to unpack"⟩

/-- Embedding of `analyze_sentiment_with_chatgpt` (lines 255-289).  The prompt text and the
remote chat-completion call are external; `apiResponse` injects the outcome of
`openai.chat.completions.create` (the response text, or the exception it
raised).  On success the response text is split and stripped as at lines
288-289. -/
def analyze_sentiment_with_chatgpt (text : String) (top_emotions : List (String × ℚ))
    (apiResponse : Except Exn String) : Except Exn (String × String) :=
  match apiResponse with
  | .error e => .error e
  | .ok content => parseSentimentResponse content

/-- Embedding of `extract_entities_with_emotions` (lines 291-319): returns the remote
model's response text unchanged (or propagates the exception). -/
def extract_entities_with_emotions (text : String) (top_emotions : List (String × ℚ))
    (apiResponse : Except Exn String) : Except Exn String :=
  apiResponse

/-- Embedding of `analyze_hume_transcript` (lines 115-141): each of the two analysis calls
is wrapped in its own try/except; a raised exception is printed and an EMPTY
STRING is substituted for that call's result.  On success the first call's
result is the (analysis, feedback) pair, so the first component is a sum. -/
def analyze_hume_transcript (transcript : String) (top_emotions : List (String × ℚ))
    (sentimentApi : Except Exn String) (entitiesApi : Except Exn String) :
    (String ⊕ (String × String)) × String :=
  let sentiment : String ⊕ (String × String) :=
    match analyze_sentiment_with_chatgpt transcript top_emotions sentimentApi with
    | .ok p => .inr p
    | .error _ => .inl ""
  let entities : String :=
    match extract_entities_with_emotions transcript top_emotions entitiesApi with
    | .ok s => s
    | .error _ => ""
  (sentiment, entities)

/-- The structured record written to Firestore (lines 179-188).  The
server-assigned timestamp sentinel and the 2-decimal display formatting of
the scores are not modelled. -/
structure ChatData where
  transcript : String
  top_emotions : List (String × ℚ)
  emotional_analysis : String
  empathetic_feedback : String
  emotional_associations : String
deriving DecidableEq

/-- Outcome of `save_chat_to_firestore`:
* `skipped`: the early `return` at line 158, after printing the warning;
  no store write happens and nothing is raised;
* `saved`: the document write at line 191 was performed with this data;
* `raised`: an exception reached the outer handler (lines 207-210), which
  prints the two recorded lines and re-raises the same exception. -/
inductive SaveResult where
  | skipped (warning : String)
  | saved (data : ChatData)
  | raised (logged : List String) (exn : Exn)
deriving DecidableEq

/-- Embedding of `save_chat_to_firestore` (lines 143-210).  The two chat-completion call
outcomes and the Firestore `set` outcome are injected as `Except` parameters;
each external call is made (at most) once, in source order: sentiment
analysis, then entity extraction, then the store write.  Any exception raised
inside the body is caught by the single outer handler, logged with its
message and type name, and re-raised. -/
def save_chat_to_firestore (chat_id : String) (messages : List Msg)
    (sentimentApi : Except Exn String) (entitiesApi : Except Exn String)
    (dbSet : Except Exn Unit) : SaveResult :=
  let handle : Exn → SaveResult := fun e =>
    .raised ["Error saving chat to Firestore: " ++ e.msg,
             "Error type: " ++ e.ty] e
  if chat_id = "" then handle ⟨"ValueError", "chat_id is required"⟩
  else
    let transcript := transcriptOf messages
    if transcript = "" then .skipped "Warning: No user messages found to save"
    else
      let all_emotions := aggregateEmotions messages
      let top_emotions := (sortDescByScore all_emotions).take 3
      match analyze_sentiment_with_chatgpt transcript top_emotions sentimentApi with
      | .error e => handle e
      | .ok (emotional_analysis, empathetic_feedback) =>
        match extract_entities_with_emotions transcript top_emotions entitiesApi with
        | .error e => handle e
        | .ok associations =>
          match dbSet with
          | .error e => handle e
          | .ok _ =>
            .saved { transcript := transcript
                     top_emotions := top_emotions
                     emotional_analysis := emotional_analysis
                     empathetic_feedback := empathetic_feedback
                     emotional_associations := associations }

/-- The scores attached to `label` in an emotion association list, in order. -/
def scoresIn (es : List (String × ℚ)) (label : String) : List ℚ :=
  es.filterMap (fun p => if p.1 = label then some p.2 else none)

/-- All scores observed for `label` across the USER messages of a session,
in arrival order. -/
def userScores (messages : List Msg) (label : String) : List ℚ :=
  scoresIn ((messages.filter (fun m => m.role == "USER")).flatMap (fun m => m.emotions)) label

/-- Folding the per-label effect of `recordEmotion` over a list of scores. -/
def combineScores (o : Option ℚ) (vs : List ℚ) : Option ℚ :=
  vs.foldl (fun acc v => some (max v (acc.getD 0))) o

/-- The mutable state of `WebSocketHandler` (lines 35-40).  The audio byte
stream records the raw base64 payloads forwarded at lines 72-75 (the base64
decoding itself is an external byte-level detail, not modelled). -/
structure WebSocketHandler where
  chat_id : Option String
  messages : List Msg
  byte_strs : List String
deriving DecidableEq

/-- The inbound events of `on_message`, keyed by `message.type`.  For the two
turn events the payload fields read by the source are the message content,
the `from_text` flag, and the prosody score dict; the role read from the
payload and upper-cased at line 57 is `"user"` / `"assistant"` respectively
by the event kind. -/
inductive SubscribeEvent where
  | chat_metadata (chat_id : String)
  | user_message (content : String) (from_text : Bool) (prosodyScores : List (String × ℚ))
  | assistant_message (content : String) (from_text : Bool) (prosodyScores : List (String × ℚ))
  | audio_output (data : String)
  | errorEvent (code : String) (message : String)
  | otherEvent (ty : String)
deriving DecidableEq

/-- Embedding of `WebSocketHandler.on_message` (lines 50-88).  Console printing is not
tracked.  A `chat_metadata` event assigns `chat_id` unconditionally; a turn
event appends one message whose emotion dict is the event's prosody scores
exactly when `from_text is False`; an `audio_output` event forwards its
payload to the byte stream; an `error` event raises `ApiError`; any other
event leaves the state unchanged. -/
def on_message (h : WebSocketHandler) (message : SubscribeEvent) (now : Nat) :
    Except Exn WebSocketHandler :=
  match message with
  | .chat_metadata cid => .ok { h with chat_id := some cid }
  | .user_message content ft scores =>
      .ok { h with messages := h.messages ++
        [{ role := "USER", message := content, timestamp := now,
           emotions := if ft = false then scores else [] }] }
  | .assistant_message content ft scores =>
      .ok { h with messages := h.messages ++
        [{ role := "ASSISTANT", message := content, timestamp := now,
           emotions := if ft = false then scores else [] }] }
  | .audio_output data => .ok { h with byte_strs := h.byte_strs ++ [data] }
  | .errorEvent code msg =>
      .error ⟨"ApiError", "Error (" ++ code ++ "): " ++ msg⟩
  | .otherEvent _ => .ok h

/-- Python truthiness of `self.chat_id` (a `None`-or-string field). -/
def truthyChatId : Option String → Bool
  | none => false
  | some s => !(s == "")

/-- Embedding of `WebSocketHandler.on_close` (lines 90-94): invoke the pipeline only when
`self.chat_id and self.messages` is truthy; otherwise do nothing.  `none`
means the pipeline was not invoked at all (no store write, nothing raised). -/
def on_close (h : WebSocketHandler) (sentimentApi : Except Exn String)
    (entitiesApi : Except Exn String) (dbSet : Except Exn Unit) :
    Option SaveResult :=
  if truthyChatId h.chat_id && !h.messages.isEmpty then
    some (save_chat_to_firestore (h.chat_id.getD "") h.messages
      sentimentApi entitiesApi dbSet)
  else none

/-! ### Helper lemmas -/

theorem transcriptOf_eq_empty_of_no_user {msgs : List Msg}
    (h : msgs.filter (fun m => m.role == "USER") = []) : transcriptOf msgs = "" := by
  rw [transcriptOf, h]
  rfl

/-! ### C3: recording chat_id on a metadata event -/

/-- C3 counterexample: a session whose `chat_id` is already set to
`"chat-a"` processes a further metadata event carrying `"chat-b"`; the
router overwrites `chat_id` rather than leaving it unchanged, so the claim
that a further metadata event leaves `chat_id` unchanged is false. -/
theorem on_message_metadata_overwrites_cx :
    on_message ⟨some "chat-a", [], []⟩ (.chat_metadata "chat-b") 0 =
      .ok ⟨some "chat-b", [], []⟩ := rfl

/-- C3 (amended): on a `chat_metadata` event the router unconditionally
records the event's `chat_id`, overwriting any previously recorded value;
the rest of the state is untouched. -/
theorem on_message_metadata_sets_chat_id (h : WebSocketHandler) (cid : String) (now : Nat) :
    on_message h (.chat_metadata cid) now = .ok { h with chat_id := some cid } := rfl

/-! ### C4: which turns carry emotion scores -/

/-- C4 counterexample: an ASSISTANT turn that is voice-derived
(`from_text is False`) is appended WITH the event's non-empty prosody
scores, so the claim that the emotions mapping is empty for assistant turns
is false. -/
theorem on_message_assistant_emotions_cx :
    on_message ⟨some "chat-a", [], []⟩
        (.assistant_message "You are welcome" false [("Joy", 1/2)]) 5 =
      .ok ⟨some "chat-a",
           [{ role := "ASSISTANT", message := "You are welcome", timestamp := 5,
              emotions := [("Joy", 1/2)] }], []⟩ := rfl

/-- C4 (amended): for BOTH user and assistant turn events, exactly one
message is appended, and its emotions mapping is the event's prosody scores
when the turn is voice-derived (`from_text` false) and empty when it is
text-derived — the role plays no part in the decision. -/
theorem on_message_turn_emotions (h : WebSocketHandler) (ev : SubscribeEvent)
    (content : String) (ft : Bool) (scores : List (String × ℚ)) (now : Nat)
    (hev : ev = .user_message content ft scores ∨
           ev = .assistant_message content ft scores) :
    ∃ h2 m, on_message h ev now = .ok h2 ∧
      h2.messages = h.messages ++ [m] ∧ m.message = content ∧
      m.emotions = (if ft = false then scores else []) := by
  rcases hev with rfl | rfl
  · exact ⟨_, _, rfl, rfl, rfl, rfl⟩
  · exact ⟨_, _, rfl, rfl, rfl, rfl⟩

/-- C4 witness: the amended statement instantiated at a concrete
voice-derived assistant turn. -/
theorem on_message_turn_emotions_w :
    ∃ h2 m,
      on_message ⟨none, [], []⟩ (.assistant_message "hello" false [("Joy", 1/2)]) 0 =
        .ok h2 ∧
      h2.messages = ([] : List Msg) ++ [m] ∧ m.message = "hello" ∧
      m.emotions = (if false = false then [("Joy", (1 : ℚ)/2)] else []) :=
  on_message_turn_emotions ⟨none, [], []⟩ _ "hello" false [("Joy", 1/2)] 0 (Or.inr rfl)

/-! ### C10: the close callback's guard -/

/-- C10: `on_close` runs the Finalize-and-Persist pipeline only when the
session has a truthy `chat_id` and a non-empty message list; a session
missing its `chat_id` or holding no messages is discarded silently — the
pipeline is not invoked, so no store write happens, and `on_close` returns
normally rather than raising. -/
theorem on_close_skips (h : WebSocketHandler) (sApi eApi : Except Exn String)
    (dbSet : Except Exn Unit) (hcond : h.chat_id = none ∨ h.messages = []) :
    on_close h sApi eApi dbSet = none := by
  rcases hcond with hc | hm
  · simp [on_close, truthyChatId, hc]
  · simp [on_close, hm]

/-- C10 witness: a session that accumulated a message but never received a
metadata event (no `chat_id`) is discarded. -/
theorem on_close_skips_w :
    on_close ⟨none, [⟨"USER", "hi", 0, []⟩], []⟩ (.ok "a|||b") (.ok "e") (.ok ()) = none :=
  on_close_skips _ _ _ _ (Or.inl rfl)

/-! ### C5: empty transcript is a warned no-op -/

/-- C5: for a session with zero USER messages the pipeline prints the
warning and returns without a store write and without raising: the result is
the `skipped` outcome, which performs no write and is not an exception. -/
theorem save_skips_on_empty_transcript (cid : String) (msgs : List Msg)
    (sApi eApi : Except Exn String) (dbSet : Except Exn Unit)
    (h1 : cid ≠ "") (h2 : msgs.filter (fun m => m.role == "USER") = []) :
    save_chat_to_firestore cid msgs sApi eApi dbSet =
      .skipped "Warning: No user messages found to save" := by
  have ht : transcriptOf msgs = "" := transcriptOf_eq_empty_of_no_user h2
  simp [save_chat_to_firestore, h1, ht]

/-- C5 witness: a session holding only an assistant turn is skipped with
the warning. -/
theorem save_skips_on_empty_transcript_w :
    save_chat_to_firestore "chat-1" [⟨"ASSISTANT", "hi", 0, []⟩]
        (.ok "a|||b") (.ok "e") (.ok ()) =
      .skipped "Warning: No user messages found to save" :=
  save_skips_on_empty_transcript _ _ _ _ _ (by decide) (by decide)

/-! ### C8: the persisted transcript -/

/-- C8: whenever the pipeline persists a record, the record's transcript is
the space-join, in arrival order, of the texts of exactly the USER messages;
on the spec's three-message example the transcript is
"I went to the park It was nice" with the assistant turn excluded. -/
theorem save_transcript_spec :
    (∀ (cid : String) (msgs : List Msg) (sApi eApi : Except Exn String)
        (dbSet : Except Exn Unit) (data : ChatData),
        save_chat_to_firestore cid msgs sApi eApi dbSet = .saved data →
        data.transcript = transcriptOf msgs) ∧
    transcriptOf [⟨"USER", "I went to the park", 0, []⟩,
                  ⟨"ASSISTANT", "How did that feel?", 1, []⟩,
                  ⟨"USER", "It was nice", 2, []⟩] = "I went to the park It was nice" := by
  constructor
  · intro cid msgs sApi eApi dbSet data hs
    simp only [save_chat_to_firestore] at hs
    split at hs
    · exact SaveResult.noConfusion hs
    · split at hs
      · exact SaveResult.noConfusion hs
      · split at hs
        · exact SaveResult.noConfusion hs
        · split at hs
          · exact SaveResult.noConfusion hs
          · split at hs
            · exact SaveResult.noConfusion hs
            · injection hs with h
              rw [← h]
  · rfl

/-- C8 witness: the general statement applied to a concrete successful run
of the pipeline on the example session. -/
theorem save_transcript_spec_w :
    (⟨"I went to the park It was nice", [], "a", "b", "ents"⟩ : ChatData).transcript =
      transcriptOf [⟨"USER", "I went to the park", 0, []⟩,
                    ⟨"ASSISTANT", "How did that feel?", 1, []⟩,
                    ⟨"USER", "It was nice", 2, []⟩] :=
  save_transcript_spec.1 "c8"
    [⟨"USER", "I went to the park", 0, []⟩,
     ⟨"ASSISTANT", "How did that feel?", 1, []⟩,
     ⟨"USER", "It was nice", 2, []⟩]
    (.ok "a|||b") (.ok "ents") (.ok ()) _ rfl

/-! ### C9: a failing store write is logged and re-raised -/

/-- C9: if the two analysis calls succeed but the Firestore write raises,
the pipeline's outer handler logs the failure message together with the
exception's type name (the error-kind classification) and re-raises the very
same exception; the single injected write outcome reflects that the write is
attempted exactly once, with no retry, and the `raised` outcome shows it is
not swallowed. -/
theorem save_reraises_db_failure (cid : String) (msgs : List Msg)
    (content : String) (a b ents : String) (e : Exn)
    (h1 : cid ≠ "") (h2 : transcriptOf msgs ≠ "")
    (h3 : parseSentimentResponse content = .ok (a, b)) :
    save_chat_to_firestore cid msgs (.ok content) (.ok ents) (.error e) =
      .raised ["Error saving chat to Firestore: " ++ e.msg,
               "Error type: " ++ e.ty] e := by
  simp [save_chat_to_firestore, h1, h2, analyze_sentiment_with_chatgpt, h3,
        extract_entities_with_emotions]

/-- C9 witness: a concrete session whose store write raises a
permission-denied error. -/
theorem save_reraises_db_failure_w :
    save_chat_to_firestore "chat-9" [⟨"USER", "hello", 0, []⟩]
        (.ok "p|||q") (.ok "ents") (.error ⟨"PermissionDenied", "insufficient permissions"⟩) =
      .raised ["Error saving chat to Firestore: insufficient permissions",
               "Error type: PermissionDenied"]
        ⟨"PermissionDenied", "insufficient permissions"⟩ :=
  save_reraises_db_failure _ _ "p|||q" "p" "q" "ents" _ (by decide) (by decide) rfl

/-! ### C1: what a failing analysis call does to persistence -/

/-- C1 counterexample: a session whose first analysis call raises.  The
failure is NOT substituted by an empty string inside the pipeline: it
reaches the outer handler of `save_chat_to_firestore`, is logged, and is
re-raised, and no record is written — contradicting the claim that the
persisted record still exists with empty analysis fields. -/
theorem save_analysis_failure_cx :
    save_chat_to_firestore "chat-1" [⟨"USER", "I feel sad", 0, [("Sadness", 4/5)]⟩]
        (.error ⟨"APIConnectionError", "connection failed"⟩) (.ok "entities") (.ok ()) =
      .raised ["Error saving chat to Firestore: connection failed",
               "Error type: APIConnectionError"]
        ⟨"APIConnectionError", "connection failed"⟩ := rfl

/-- C1 (amended): the local catch-and-substitute of empty strings exists only
in `analyze_hume_transcript`, which the Finalize-and-Persist pipeline never
calls; `save_chat_to_firestore` invokes the analysis calls directly, so a
failing first analysis call propagates to its outer handler, is logged and
re-raised, and the record is not persisted. -/
theorem analysis_failure_aborts_save :
    (∀ (cid : String) (msgs : List Msg) (e : Exn) (eApi : Except Exn String)
        (dbSet : Except Exn Unit),
        cid ≠ "" → transcriptOf msgs ≠ "" →
        save_chat_to_firestore cid msgs (.error e) eApi dbSet =
          .raised ["Error saving chat to Firestore: " ++ e.msg,
                   "Error type: " ++ e.ty] e) ∧
    (∀ (t : String) (tops : List (String × ℚ)) (e : Exn) (eApi : Except Exn String),
        (analyze_hume_transcript t tops (.error e) eApi).1 = .inl "") := by
  constructor
  · intro cid msgs e eApi dbSet h1 h2
    simp [save_chat_to_firestore, h1, h2, analyze_sentiment_with_chatgpt]
  · intro t tops e eApi
    rfl

/-- C1 witness: the amended statement at a concrete failing session. -/
theorem analysis_failure_aborts_save_w :
    save_chat_to_firestore "chat-2" [⟨"USER", "ok", 0, []⟩]
        (.error ⟨"Exception", "boom"⟩) (.ok "e") (.ok ()) =
      .raised ["Error saving chat to Firestore: boom", "Error type: Exception"]
        ⟨"Exception", "boom"⟩ :=
  analysis_failure_aborts_save.1 "chat-2" _ _ _ _ (by decide) (by decide)

/-! ### C6: properties of the top-N emotion extractor -/

theorem length_insertDescByScore (p : String × ℚ) (l : List (String × ℚ)) :
    (insertDescByScore p l).length = l.length + 1 := by
  induction l with
  | nil => rfl
  | cons q rest ih =>
    by_cases hq : q.2 ≤ p.2 <;> simp [insertDescByScore, hq, ih]

theorem length_sortDescByScore (l : List (String × ℚ)) :
    (sortDescByScore l).length = l.length := by
  induction l with
  | nil => rfl
  | cons p rest ih => simp [sortDescByScore, length_insertDescByScore, ih]

theorem mem_insertDescByScore {q p : String × ℚ} {l : List (String × ℚ)} :
    q ∈ insertDescByScore p l ↔ q = p ∨ q ∈ l := by
  induction l with
  | nil => simp [insertDescByScore]
  | cons r rest ih =>
    by_cases hr : r.2 ≤ p.2 <;> simp [insertDescByScore, hr, ih] <;> tauto

theorem pairwise_insertDescByScore {p : String × ℚ} {l : List (String × ℚ)}
    (h : l.Pairwise (fun a b => b.2 ≤ a.2)) :
    (insertDescByScore p l).Pairwise (fun a b => b.2 ≤ a.2) := by
  induction l with
  | nil => simp [insertDescByScore]
  | cons q rest ih =>
    rw [List.pairwise_cons] at h
    by_cases hq : q.2 ≤ p.2
    · rw [insertDescByScore, if_pos hq, List.pairwise_cons]
      refine ⟨?_, List.pairwise_cons.mpr h⟩
      intro x hx
      rcases List.mem_cons.mp hx with rfl | hx'
      · exact hq
      · exact le_trans (h.1 x hx') hq
    · rw [insertDescByScore, if_neg hq, List.pairwise_cons]
      refine ⟨?_, ih h.2⟩
      intro x hx
      rcases mem_insertDescByScore.mp hx with rfl | hx'
      · exact le_of_not_le hq
      · exact h.1 x hx'

theorem pairwise_sortDescByScore (l : List (String × ℚ)) :
    (sortDescByScore l).Pairwise (fun a b => b.2 ≤ a.2) := by
  induction l with
  | nil => exact List.Pairwise.nil
  | cons p rest ih => exact pairwise_insertDescByScore ih

theorem filter_insertDescByScore (p : String × ℚ) (l : List (String × ℚ)) (v : ℚ) :
    (insertDescByScore p l).filter (fun q => decide (q.2 = v)) =
      if p.2 = v then p :: l.filter (fun q => decide (q.2 = v))
      else l.filter (fun q => decide (q.2 = v)) := by
  induction l with
  | nil =>
    by_cases hp : p.2 = v <;> simp [insertDescByScore, hp]
  | cons q rest ih =>
    by_cases hq : q.2 ≤ p.2
    · rw [insertDescByScore, if_pos hq]
      by_cases hp : p.2 = v <;> simp [hp, List.filter_cons]
    · rw [insertDescByScore, if_neg hq]
      by_cases hqv : q.2 = v
      · by_cases hp : p.2 = v
        · exact absurd (le_of_eq (hqv.trans hp.symm)) hq
        · simp [List.filter_cons, hqv, hp, ih]
      · by_cases hp : p.2 = v <;> simp [List.filter_cons, hqv, hp, ih]

theorem filter_sortDescByScore (l : List (String × ℚ)) (v : ℚ) :
    (sortDescByScore l).filter (fun q => decide (q.2 = v)) =
      l.filter (fun q => decide (q.2 = v)) := by
  induction l with
  | nil => rfl
  | cons p rest ih =>
    rw [sortDescByScore, filter_insertDescByScore, ih]
    by_cases hp : p.2 = v <;> simp [List.filter_cons, hp]

theorem sortDescByScore_of_pairwise :
    ∀ {l : List (String × ℚ)}, l.Pairwise (fun a b => b.2 ≤ a.2) →
      sortDescByScore l = l
  | [], _ => rfl
  | p :: rest, h => by
    show insertDescByScore p (sortDescByScore rest) = p :: rest
    rw [sortDescByScore_of_pairwise (List.Pairwise.of_cons h)]
    cases rest with
    | nil => rfl
    | cons q rest2 =>
      have hq : q.2 ≤ p.2 := (List.pairwise_cons.mp h).1 q (List.mem_cons_self _ _)
      rw [insertDescByScore, if_pos hq]

theorem filter_take_isPre (l : List (String × ℚ)) (n : Nat) (v : ℚ) :
    (l.take n).filter (fun q => decide (q.2 = v)) <+:
      l.filter (fun q => decide (q.2 = v)) :=
  ⟨(l.drop n).filter (fun q => decide (q.2 = v)),
   by rw [← List.filter_append, List.take_append_drop]⟩

/-- C6: `extract_top_n_emotions` returns `min n |s|` entries, sorted in
descending score order; equal-score entries keep the input's original order
(the score-`v` entries of the output are a prefix of the score-`v` entries of
the input, for every `v`); and on an input that is already sorted descending
and has length at most `n` it is the identity. -/
theorem extract_top_n_emotions_spec (s : List (String × ℚ)) (n : Nat) :
    (extract_top_n_emotions s n).length = min n s.length
  ∧ (extract_top_n_emotions s n).Pairwise (fun a b => b.2 ≤ a.2)
  ∧ (∀ v : ℚ, (extract_top_n_emotions s n).filter (fun q => decide (q.2 = v)) <+:
        s.filter (fun q => decide (q.2 = v)))
  ∧ (s.Pairwise (fun a b => b.2 ≤ a.2) → s.length ≤ n →
        extract_top_n_emotions s n = s) := by
  refine ⟨?_, ?_, ?_, ?_⟩
  · rw [extract_top_n_emotions, List.length_take, length_sortDescByScore]
  · exact List.Pairwise.sublist (List.take_sublist _ _) (pairwise_sortDescByScore s)
  · intro v
    have h := filter_take_isPre (sortDescByScore s) n v
    rwa [filter_sortDescByScore] at h
  · intro hs hlen
    rw [extract_top_n_emotions, sortDescByScore_of_pairwise hs,
        List.take_of_length_le hlen]

/-- C6 witness: the idempotence part applied to a concrete sorted tie. -/
theorem extract_top_n_emotions_spec_w :
    ([("Calm", mkRat 1 2), ("Joy", mkRat 1 2)] : List (String × ℚ)).Pairwise
        (fun a b => b.2 ≤ a.2) ∧
    extract_top_n_emotions [("Calm", mkRat 1 2), ("Joy", mkRat 1 2)] 3 =
      [("Calm", mkRat 1 2), ("Joy", mkRat 1 2)] :=
  ⟨by decide,
   (extract_top_n_emotions_spec [("Calm", mkRat 1 2), ("Joy", mkRat 1 2)] 3).2.2.2
     (by decide) (by decide)⟩

/-! ### C7: the aggregated emotion profile takes the per-label maximum -/

theorem lookupA_updateA (al : List (String × ℚ)) (k k2 : String) (v : ℚ) :
    lookupA (updateA al k v) k2 = if k2 = k then some v else lookupA al k2 := by
  induction al with
  | nil =>
    by_cases h : k2 = k
    · simp [updateA, lookupA, h]
    · simp [updateA, lookupA, h, Ne.symm h]
  | cons p rest ih =>
    by_cases hp : p.1 = k
    · by_cases h2 : k2 = k
      · simp [updateA, hp, lookupA, h2]
      · have hp2 : p.1 ≠ k2 := by rw [hp]; exact Ne.symm h2
        simp [updateA, hp, lookupA, h2, Ne.symm h2, hp2]
    · by_cases hp2 : p.1 = k2
      · have h2 : ¬ (k2 = k) := by rw [← hp2]; exact hp
        simp [updateA, hp, lookupA, hp2, h2]
      · simp [updateA, hp, lookupA, hp2, ih]

theorem lookupA_recordEmotion (acc : List (String × ℚ)) (p : String × ℚ)
    (label : String) :
    lookupA (recordEmotion acc p) label =
      if p.1 = label then some (max p.2 ((lookupA acc p.1).getD 0))
      else lookupA acc label := by
  rw [recordEmotion, lookupA_updateA]
  by_cases h : p.1 = label
  · simp [h]
  · simp [h, Ne.symm h]

theorem scoresIn_cons (p : String × ℚ) (es : List (String × ℚ)) (label : String) :
    scoresIn (p :: es) label =
      if p.1 = label then p.2 :: scoresIn es label else scoresIn es label := by
  by_cases h : p.1 = label <;> simp [scoresIn, List.filterMap_cons, h]

theorem combineScores_append (o : Option ℚ) (xs ys : List ℚ) :
    combineScores o (xs ++ ys) = combineScores (combineScores o xs) ys := by
  simp [combineScores, List.foldl_append]

theorem combineScores_some (m : ℚ) (vs : List ℚ) :
    combineScores (some m) vs = some (vs.foldl max m) := by
  induction vs generalizing m with
  | nil => rfl
  | cons v rest ih =>
    show combineScores (some (max v m)) rest = some (List.foldl max (max m v) rest)
    rw [ih, max_comm v m]

theorem lookupA_foldl_recordEmotion (es : List (String × ℚ))
    (acc : List (String × ℚ)) (label : String) :
    lookupA (es.foldl recordEmotion acc) label =
      combineScores (lookupA acc label) (scoresIn es label) := by
  induction es generalizing acc with
  | nil => rfl
  | cons p rest ih =>
    rw [List.foldl_cons, ih, scoresIn_cons, lookupA_recordEmotion]
    by_cases h : p.1 = label
    · rw [if_pos h, if_pos h, h]
      rfl
    · rw [if_neg h, if_neg h]

theorem userScores_cons (m : Msg) (msgs : List Msg) (label : String) :
    userScores (m :: msgs) label =
      (if m.role == "USER" then scoresIn m.emotions label else []) ++
        userScores msgs label := by
  by_cases h : m.role == "USER" <;>
    simp [userScores, scoresIn, List.filter_cons, h]

theorem lookupA_foldl_aggStep (msgs : List Msg) (acc : List (String × ℚ))
    (label : String) :
    lookupA (msgs.foldl aggStep acc) label =
      combineScores (lookupA acc label) (userScores msgs label) := by
  induction msgs generalizing acc with
  | nil => rfl
  | cons m rest ih =>
    rw [List.foldl_cons, ih, userScores_cons, combineScores_append]
    by_cases hu : m.role == "USER"
    · by_cases he : m.emotions.isEmpty
      · have hnil : m.emotions = [] := List.isEmpty_iff.mp he
        simp [aggStep, hu, he, hnil, scoresIn, combineScores]
      · simp [aggStep, hu, he, lookupA_foldl_recordEmotion]
    · simp [aggStep, hu, combineScores]

/-- C7: the aggregated profile maps each label to the MAXIMUM score it
received across the session's USER messages (provided the observed scores
are nonnegative, as confidence scores are), and a label that never occurs in
a USER message — e.g. one occurring only in assistant messages — is absent
from the profile (`userScores` empty gives `none`). -/
theorem aggregateEmotions_max (msgs : List Msg) (label : String)
    (h : ∀ v ∈ userScores msgs label, 0 ≤ v) :
    lookupA (aggregateEmotions msgs) label = (userScores msgs label).max? := by
  rw [aggregateEmotions, lookupA_foldl_aggStep]
  show combineScores none (userScores msgs label) = _
  cases hs : userScores msgs label with
  | nil => rfl
  | cons v vs =>
    have hv : 0 ≤ v := h v (hs ▸ List.mem_cons_self _ _)
    show combineScores (some (max v ((none : Option ℚ).getD 0))) vs = _
    rw [show ((none : Option ℚ).getD 0) = 0 from rfl, max_eq_left hv,
        combineScores_some]
    rfl

/-- C7 witness: a label observed in USER messages with scores
[0.2, 0.9, 0.5] aggregates to 0.9 (the maximum, not the average), while a
label occurring only in an assistant message is checked against the same
characterisation. -/
theorem aggregateEmotions_max_w :
    (∀ v ∈ userScores
        [⟨"USER", "a", 0, [("Joy", mkRat 1 5)]⟩,
         ⟨"USER", "b", 1, [("Joy", mkRat 9 10)]⟩,
         ⟨"ASSISTANT", "c", 2, [("Fear", mkRat 1 1)]⟩,
         ⟨"USER", "d", 3, [("Joy", mkRat 1 2)]⟩] "Joy", 0 ≤ v) ∧
    lookupA (aggregateEmotions
        [⟨"USER", "a", 0, [("Joy", mkRat 1 5)]⟩,
         ⟨"USER", "b", 1, [("Joy", mkRat 9 10)]⟩,
         ⟨"ASSISTANT", "c", 2, [("Fear", mkRat 1 1)]⟩,
         ⟨"USER", "d", 3, [("Joy", mkRat 1 2)]⟩]) "Joy" =
      (userScores
        [⟨"USER", "a", 0, [("Joy", mkRat 1 5)]⟩,
         ⟨"USER", "b", 1, [("Joy", mkRat 9 10)]⟩,
         ⟨"ASSISTANT", "c", 2, [("Fear", mkRat 1 1)]⟩,
         ⟨"USER", "d", 3, [("Joy", mkRat 1 2)]⟩] "Joy").max? ∧
    (userScores
        [⟨"USER", "a", 0, [("Joy", mkRat 1 5)]⟩,
         ⟨"USER", "b", 1, [("Joy", mkRat 9 10)]⟩,
         ⟨"ASSISTANT", "c", 2, [("Fear", mkRat 1 1)]⟩,
         ⟨"USER", "d", 3, [("Joy", mkRat 1 2)]⟩] "Joy").max? = some (mkRat 9 10) :=
  ⟨by decide, aggregateEmotions_max _ _ (by decide), by decide⟩

/-! ### C2: splitting the first analysis response on the delimiter -/

theorem splitOnBars_not_bars (c : Char) (rest : List Char)
    (h : startsWithBars (c :: rest) = false) :
    splitOnBars (c :: rest) = consChunk c (splitOnBars rest) := by
  apply splitOnBars.eq_3
  intro rest2 hc hrest
  rw [hc, hrest] at h
  simp [startsWithBars] at h

theorem splitOnBars_no_bars (b : List Char)
    (hb : ∀ i, i < b.length → startsWithBars (List.drop i b) = false) :
    splitOnBars b = [b] := by
  induction b with
  | nil => rfl
  | cons c rest ih =>
    have h0 : startsWithBars (c :: rest) = false := by
      simpa using hb 0 (by simp)
    rw [splitOnBars_not_bars c rest h0, ih]
    · rfl
    · intro i hi
      simpa using hb (i + 1) (by simpa using Nat.succ_lt_succ hi)

theorem splitOnBars_append (a b : List Char)
    (ha : ∀ i, i < a.length → startsWithBars (List.drop i a ++ bars ++ b) = false)
    (hb : ∀ i, i < b.length → startsWithBars (List.drop i b) = false) :
    splitOnBars (a ++ bars ++ b) = [a, b] := by
  induction a with
  | nil =>
    show splitOnBars ('|' :: '|' :: '|' :: b) = [[], b]
    rw [show splitOnBars ('|' :: '|' :: '|' :: b) = [] :: splitOnBars b from rfl,
        splitOnBars_no_bars b hb]
  | cons c a1 ih =>
    have h0 : startsWithBars (c :: (a1 ++ bars ++ b)) = false := by
      simpa using ha 0 (by simp)
    show splitOnBars (c :: (a1 ++ bars ++ b)) = [c :: a1, b]
    rw [splitOnBars_not_bars _ _ h0, ih]
    · rfl
    · intro i hi
      simpa using ha (i + 1) (by simpa using Nat.succ_lt_succ hi)

/-- C2 counterexample: a response containing the delimiter twice.  The
source splits on EVERY occurrence and then tuple-unpacks into two names, so
this raises a `ValueError` instead of returning the trimmed text before and
after the first delimiter, refuting the claim for responses containing the
delimiter "at least once". -/
theorem parseSentiment_two_delims_cx :
    parseSentimentResponse "one|||two|||three" =
      .error ⟨"ValueError", "values to unpack"⟩ := rfl

/-- C2 (amended): when the response contains the delimiter EXACTLY once —
no occurrence starts inside the part before it (including straddling
positions) and none inside the part after it — the call returns the trimmed
text before the delimiter and the trimmed text after it. -/
theorem parseSentiment_splits (a b : String)
    (ha : ∀ i, i < a.data.length →
        startsWithBars (List.drop i a.data ++ bars ++ b.data) = false)
    (hb : ∀ i, i < b.data.length → startsWithBars (List.drop i b.data) = false) :
    parseSentimentResponse (a ++ "|||" ++ b) = .ok (strip a, strip b) := by
  have hdata : (a ++ "|||" ++ b).data = a.data ++ bars ++ b.data := by
    rw [String.data_append, String.data_append]
    rfl
  rw [parseSentimentResponse, hdata, splitOnBars_append a.data b.data ha hb]
  rfl

/-- C2 witness: a concrete response with one delimiter and surrounding
whitespace. -/
theorem parseSentiment_splits_w :
    (∀ i, i < ("Part one. ").data.length →
        startsWithBars (List.drop i ("Part one. ").data ++ bars ++
          (" Part two. ").data) = false) ∧
    (∀ i, i < (" Part two. ").data.length →
        startsWithBars (List.drop i (" Part two. ").data) = false) ∧
    parseSentimentResponse ("Part one. " ++ "|||" ++ " Part two. ") =
      .ok (strip "Part one. ", strip " Part two. ") :=
  ⟨by decide, by decide, parseSentiment_splits "Part one. " " Part two. "
    (by decide) (by decide)⟩

end Neuropy
